import Mathlib

/-!
Verification of the order lifecycle and pricing engine of a multi-tenant
food-ordering backend (order model, order service, order controller,
bot notification service), shallowly embedded in Lean 4.

Monetary values are modelled as rationals (`ℚ`), identifiers as naturals,
timestamps as naturals, and JavaScript `undefined`/`null` as `Option`.
JavaScript truthiness on the values that actually occur in the embedded
code paths (numbers and strings) is captured by the `jsOr*`/`jsTruthy*`
helpers: a number is falsy exactly when it is `0` (`NaN` does not arise
for the inputs modelled here), a string exactly when it is empty, and an
absent value is always falsy.
-/

namespace Mybot

/-- JS `x || d` for an optional number field: absent, `null` and `0` fall
back to the default. -/
def jsOrQ : Option ℚ → ℚ → ℚ
  | none, d => d
  | some x, d => if x = 0 then d else x

/-- JS truthiness of an optional string: absent, `null` and `""` are falsy. -/
def jsTruthyS : Option String → Bool
  | none => false
  | some s => !(s = "")

/-- JS truthiness of an optional number: absent, `null` and `0` are falsy. -/
def jsTruthyQ : Option ℚ → Bool
  | none => false
  | some x => !(x = 0)

/-- `ItemOptionSchema`: `{ name: String, price: Number }`; the price is
optional in the schema, so it is an `Option`. -/
structure ItemOption where
  name : String
  price : Option ℚ
deriving Repr, DecidableEq

/-- `OrderItemSchema`: product reference, display name, flavor, quantity,
unit price and selected options. -/
structure OrderItem where
  productId : Option Nat
  name : String
  flavor : Option String
  quantity : Nat
  unitPrice : ℚ
  options : List ItemOption
deriving Repr, DecidableEq

/-- Order status enum of `OrderSchema.status`. -/
inductive Status where
  | pending | confirmed | preparing | delivering | completed | cancelled
deriving Repr, DecidableEq

/-- The string stored for each status value. -/
def statusToString : Status → String
  | .pending => "pending"
  | .confirmed => "confirmed"
  | .preparing => "preparing"
  | .delivering => "delivering"
  | .completed => "completed"
  | .cancelled => "cancelled"

/-- Parse a status string; strings outside the enum give `none`. -/
def statusFromString : String → Option Status
  | "pending" => some .pending
  | "confirmed" => some .confirmed
  | "preparing" => some .preparing
  | "delivering" => some .delivering
  | "completed" => some .completed
  | "cancelled" => some .cancelled
  | _ => none

/-- Embedded customer subdocument; `name`/`phone` are required by the
schema but arrive as raw input, hence `Option`. -/
structure Customer where
  name : Option String
  phone : Option String
  address : Option String
deriving Repr, DecidableEq

/-- A persisted order document (`OrderSchema`).  `oid` models the
system-assigned `_id`, `createdAt` the `timestamps: true` creation time. -/
structure Order where
  oid : Nat
  tenantId : Nat
  orderNumber : String
  status : Status
  customer : Customer
  items : List OrderItem
  paymentMethod : Option String
  changeFor : Option ℚ
  deliveryFee : ℚ
  subtotal : ℚ
  total : ℚ
  rating : Option ℚ
  notes : Option String
  createdAt : Nat
deriving Repr, DecidableEq

/-! ## Pricing (orderService.createOrder, lines 517–531) -/

/-- `item.options.reduce((sum, opt) => sum + (opt.price || 0), 0)`. -/
def optionsSum (opts : List ItemOption) : ℚ :=
  opts.foldl (fun s o => s + jsOrQ o.price 0) 0

/-- Per-item contribution to the subtotal:
`itemTotal = quantity * unitPrice` plus, when the option list is
non-empty, `optionsSum * quantity`. -/
def itemSubtotal (it : OrderItem) : ℚ :=
  (it.quantity : ℚ) * it.unitPrice +
    (if it.options.isEmpty then 0 else optionsSum it.options * (it.quantity : ℚ))

/-- The running `subtotal` accumulated over the item loop. -/
def computeSubtotal (items : List OrderItem) : ℚ :=
  items.foldl (fun s it => s + itemSubtotal it) 0

/-! ## Order number generation (OrderSchema.statics.generateOrderNumber) -/

/-- JS `parseInt` restricted to the strings that occur here: reads the
maximal leading digit run; a string not starting with a digit gives
`none` (JS `NaN`). -/
def parseIntNat (s : String) : Option Nat :=
  let ds := s.data.takeWhile (fun c => c.isDigit)
  if ds.isEmpty then none
  else some (ds.foldl (fun a c => a * 10 + (c.toNat - 48)) 0)

/-- JS `n.toString().padStart(3, '0')`. -/
def pad3 (n : Nat) : String :=
  let s := toString n
  if 3 ≤ s.length then s else String.mk (List.replicate (3 - s.length) '0') ++ s

/-- The date part of the order-number pattern, `"ORD-" + dateStr + "-"`. -/
def ordNumPat (dateStr : String) : String := "ORD-" ++ dateStr ++ "-"

/-- String prefix test on the underlying character lists. -/
def strHasPre (p s : String) : Bool := p.data.isPrefixOf s.data

/-- Order numbers of the tenant's orders matching today's pattern
(the regex `^ORD-<dateStr>-` from the `findOne` filter). -/
def matchingNumbers (store : List Order) (tenantId : Nat) (dateStr : String) :
    List String :=
  (store.filter (fun o =>
    o.tenantId == tenantId && strHasPre (ordNumPat dateStr) o.orderNumber)).map
    (fun o => o.orderNumber)

/-- Boolean lexicographic comparison of character lists (the byte order
the store sorts strings by). -/
def listStrLt : List Char → List Char → Bool
  | [], [] => false
  | [], _ :: _ => true
  | _ :: _, [] => false
  | a :: as, b :: bs =>
    if a < b then true else if b < a then false else listStrLt as bs

/-- Lexicographic maximum of two strings. -/
def strMax (a b : String) : String := if listStrLt a.data b.data then b else a

/-- The `findOne … sort { orderNumber: -1 }` result: the lexicographically
greatest string of the list, `none` when it is empty. -/
def maxString? : List String → Option String
  | [] => none
  | x :: xs => some (xs.foldl strMax x)

/-- JS `String.prototype.split` for a one-character separator, on the
character list. -/
def splitChars (sep : Char) : List Char → List (List Char)
  | [] => [[]]
  | c :: cs =>
    match splitChars sep cs with
    | [] => if c == sep then [[], []] else [[c]]
    | h :: t => if c == sep then [] :: h :: t else (c :: h) :: t

/-- JS `s.split('-')`. -/
def splitDash (s : String) : List String :=
  (splitChars '-' s.data).map String.mk

/-- `OrderSchema.statics.generateOrderNumber`: take the greatest existing
order number for the tenant and date, parse the part after the second
dash, increment; start from 1 when none exists. -/
def generateOrderNumber (store : List Order) (tenantId : Nat) (dateStr : String) :
    String :=
  match maxString? (matchingNumbers store tenantId dateStr) with
  | none => ordNumPat dateStr ++ pad3 1
  | some last =>
    match parseIntNat ((splitDash last).getD 2 "") with
    | none => ordNumPat dateStr ++ "NaN"
    | some k => ordNumPat dateStr ++ pad3 (k + 1)

/-! ## Catalog lookup collaborator (Catalog.findOne in createOrder) -/

/-- One entry of a pizza product's `sizesPrices`. -/
structure SizePrice where
  sizeName : String
  price : ℚ
deriving Repr, DecidableEq

/-- The part of a catalog document consulted by order creation. -/
structure Product where
  pid : Nat
  tenantId : Nat
  available : Bool
  productType : String
  sizesPrices : List SizePrice
deriving Repr, DecidableEq

/-- `Catalog.findOne({ _id, tenantId, available: true })`. -/
def findProduct (cat : List Product) (tenantId pid : Nat) : Option Product :=
  cat.find? (fun p => p.pid == pid && p.tenantId == tenantId && p.available)

/-- Substring test, JS `String.prototype.includes`. -/
def containsSub (s sub : String) : Bool :=
  s.data.tails.any (fun t => sub.data.isPrefixOf t)

/-- JS `toLowerCase`, mapped over the character list. -/
def lowerStr (s : String) : String := String.mk (s.data.map Char.toLower)

/-- The size-option detector: case-insensitive substring match of the
option name against "tamanho"/"tam"/"size". -/
def isSizeOption (o : ItemOption) : Bool :=
  containsSub (lowerStr o.name) "tamanho" || containsSub (lowerStr o.name) "tam" ||
    containsSub (lowerStr o.name) "size"

/-! ## Order creation service (orderService.createOrder) -/

/-- The ad hoc error objects thrown by the service:
`{ type, message, details }`. -/
structure SvcError where
  type : String
  message : String
  details : List String
deriving Repr, DecidableEq

instance {ε α : Type} [DecidableEq ε] [DecidableEq α] : DecidableEq (Except ε α)
  | .ok a, .ok b =>
    if h : a = b then .isTrue (by rw [h]) else .isFalse (by simp [h])
  | .ok _, .error _ => .isFalse (by simp)
  | .error _, .ok _ => .isFalse (by simp)
  | .error e, .error f =>
    if h : e = f then .isTrue (by rw [h]) else .isFalse (by simp [h])

/-- The per-item validation of the creation loop: product existence and
availability, then the pizza size check. -/
def checkItem (cat : List Product) (tenantId : Nat) (it : OrderItem) :
    Except SvcError Unit :=
  match it.productId with
  | none => .ok ()
  | some pid =>
    match findProduct cat tenantId pid with
    | none =>
      .error ⟨"validation", "Produto " ++ it.name ++ " não encontrado ou indisponível",
        ["items"]⟩
    | some product =>
      if product.productType == "pizza" && !it.options.isEmpty then
        match it.options.find? isSizeOption with
        | none => .ok ()
        | some so =>
          if product.sizesPrices.any (fun sp => lowerStr sp.sizeName == lowerStr so.name)
          then .ok ()
          else .error ⟨"validation", "Tamanho de pizza inválido: " ++ so.name,
            ["items.options"]⟩
      else .ok ()

/-- The item loop of `createOrder`: validate each item in order and
accumulate the subtotal; the first failing item aborts. -/
def processItems (cat : List Product) (tenantId : Nat) :
    List OrderItem → Except SvcError ℚ
  | [] => .ok 0
  | it :: rest =>
    match checkItem cat tenantId it with
    | .error e => .error e
    | .ok _ =>
      match processItems cat tenantId rest with
      | .error e => .error e
      | .ok s => .ok (itemSubtotal it + s)

/-- Raw request body of order creation. -/
structure OrderData where
  customer : Option Customer
  items : List OrderItem
  paymentMethod : Option String
  changeFor : Option ℚ
  deliveryFee : Option ℚ
  notes : Option String
deriving Repr, DecidableEq

/-- `!orderData.customer || !customer.name || !customer.phone`. -/
def customerInvalid (c : Option Customer) : Bool :=
  match c with
  | none => true
  | some cu => !(jsTruthyS cu.name) || !(jsTruthyS cu.phone)

/-- Allowed `paymentMethod` enum values of the schema. -/
def paymentMethods : List String := ["pix", "credit-card", "cash"]

/-- The mongoose schema validation run by `order.save()`: required
`paymentMethod` within the enum, required customer name and phone,
required non-empty order number, item quantity at least 1, rating within
1–5 when present.  `changeFor` is an unconstrained optional number. -/
def mongooseValidateOrder (o : Order) : Bool :=
  (match o.paymentMethod with
   | none => false
   | some pm => paymentMethods.contains pm) &&
  jsTruthyS o.customer.name && jsTruthyS o.customer.phone &&
  !(o.orderNumber == "") &&
  o.items.all (fun it => 1 ≤ it.quantity) &&
  (match o.rating with
   | none => true
   | some r => decide (1 ≤ r ∧ r ≤ 5))

/-- `orderService.createOrder` against an in-memory store: validation,
pricing, order-number allocation, construction and save.  `dateStr` and
`now` model the ambient clock, `oid` the id assigned on insert.  On
success it returns the created order and the store with it appended. -/
def createOrderSvc (cat : List Product) (store : List Order) (tenantId : Nat)
    (d : OrderData) (dateStr : String) (now oid : Nat) :
    Except SvcError (Order × List Order) :=
  if d.items.isEmpty then
    .error ⟨"validation", "Pedido deve conter pelo menos um item", ["items"]⟩
  else if customerInvalid d.customer then
    .error ⟨"validation", "Dados do cliente incompletos", ["customer"]⟩
  else
    match processItems cat tenantId d.items with
    | .error e => .error e
    | .ok subtotal =>
      let deliveryFee := jsOrQ d.deliveryFee 0
      let total := subtotal + deliveryFee
      let orderNumber := generateOrderNumber store tenantId dateStr
      let o : Order :=
        { oid := oid, tenantId := tenantId, orderNumber := orderNumber,
          status := .pending, customer := d.customer.getD ⟨none, none, none⟩,
          items := d.items, paymentMethod := d.paymentMethod,
          changeFor := d.changeFor, deliveryFee := deliveryFee,
          subtotal := subtotal, total := total, rating := none,
          notes := d.notes, createdAt := now }
      if mongooseValidateOrder o then .ok (o, store ++ [o])
      else .error ⟨"MongooseValidationError", "Order validation failed", []⟩

/-! ## Store lookups and saves used by the controller -/

/-- `Order.findOne({ _id, tenantId })`. -/
def findOrderById (store : List Order) (tenantId oid : Nat) : Option Order :=
  store.find? (fun o => o.oid == oid && o.tenantId == tenantId)

/-- `Order.findOne({ tenantId, orderNumber })`. -/
def findOrderByNumber (store : List Order) (tenantId : Nat) (orderNumber : String) :
    Option Order :=
  store.find? (fun o => o.tenantId == tenantId && o.orderNumber == orderNumber)

/-- `order.save()` on an already-persisted document: replace the document
with the same `_id`. -/
def saveOrder (store : List Order) (o' : Order) : List Order :=
  store.map (fun o => if o.oid == o'.oid then o' else o)

/-! ## Notification collaborator (botService) -/

/-- The external circumstances a notification runs under: whether
`Tenant.findById` finds the tenant, the tenant's registered contact
phone, and whether the underlying message send succeeds.  Every failure
path of the service is caught internally and returned as `false`, so the
functions are total and never throw. -/
structure NotifEnv where
  tenantFound : Bool
  contactPhone : Option String
  sendOk : Bool
deriving Repr, DecidableEq

/-- `botService.sendMessage`: tenant lookup, then the (simulated) send;
any error is caught and reported as `false`. -/
def sendMessage (env : NotifEnv) : Bool :=
  if env.tenantFound then env.sendOk else false

/-- `botService.notifyNewOrder`: tenant lookup, contact-phone check,
then `sendMessage`; each failure returns `false`. -/
def notifyNewOrder (env : NotifEnv) : Bool :=
  if !env.tenantFound then false
  else if !(jsTruthyS env.contactPhone) then false
  else sendMessage env

/-- `botService.notifyStatusChange`: tenant lookup then `sendMessage`
to the order's customer phone; each failure returns `false`. -/
def notifyStatusChange (env : NotifEnv) : Bool :=
  if !env.tenantFound then false else sendMessage env

/-! ## Order creation controller (orderController.createOrder) -/

/-- The controller's response: 201 with order number, status and total;
400 with the service's validation message; 500 otherwise. -/
inductive CreateResp where
  | created (orderNumber : String) (status : Status) (total : ℚ)
  | badRequest (msg : String) (details : List String)
  | serverError
deriving Repr, DecidableEq

/-- Observable outcome of a creation request: the HTTP-level response,
the resulting store, and the notification attempt's boolean result
(`none` when creation failed before the notification). -/
structure CreateOutcome where
  resp : CreateResp
  store : List Order
  notifResult : Option Bool
deriving Repr, DecidableEq

/-- `orderController.createOrder`: run the service, then
`botService.notifyNewOrder` (which never throws), and answer 201; on a
thrown error answer 400 for `type === 'validation'` and 500 otherwise. -/
def controllerCreateOrder (cat : List Product) (store : List Order) (tenantId : Nat)
    (d : OrderData) (dateStr : String) (now oid : Nat) (env : NotifEnv) :
    CreateOutcome :=
  match createOrderSvc cat store tenantId d dateStr now oid with
  | .ok (o, store') =>
    ⟨.created o.orderNumber o.status o.total, store', some (notifyNewOrder env)⟩
  | .error e =>
    if e.type == "validation" then ⟨.badRequest e.message e.details, store, none⟩
    else ⟨.serverError, store, none⟩

/-! ## Route-level creation (router.post in routes/order.js with the
`validate(validators.order)` Joi middleware of utils/validator.js) -/

/-- Joi `Joi.string().required()`: the field must be present and, as a
Joi string, non-empty. -/
def joiReqStr : Option String → Bool
  | none => false
  | some s => !(s == "")

/-- `validators.order` (utils/validator.js), on the fields the embedding
carries: a required customer with required name, phone and address; a
non-empty item list whose items have integer quantity ≥ 1 and, per
option, a required non-empty name and a required price; `paymentMethod`
among the enum; `changeFor` optional when `paymentMethod` is `"cash"`
and forbidden otherwise.  `unitPrice` is always present in the
embedding; `deliveryFee` and `notes` carry no constraint here — the
middleware reads only `error`, discarding Joi's defaulted value. -/
def joiOrderValidate (d : OrderData) : Bool :=
  (match d.customer with
   | none => false
   | some cu => joiReqStr cu.name && joiReqStr cu.phone && joiReqStr cu.address) &&
  (!d.items.isEmpty) &&
  d.items.all (fun it =>
    decide (1 ≤ it.quantity) &&
    it.options.all (fun op => !(op.name == "") && op.price.isSome)) &&
  (match d.paymentMethod with
   | none => false
   | some pm => paymentMethods.contains pm) &&
  (if d.paymentMethod == some "cash" then true else d.changeFor.isNone)

/-- `router.post('/:tenantId', …, validate(validators.order),
orderController.createOrder)`: the Joi middleware answers 400
`"Erro de validação"` without reaching the controller when validation
fails, leaving the store untouched; otherwise the controller runs. -/
def routeCreateOrder (cat : List Product) (store : List Order) (tenantId : Nat)
    (d : OrderData) (dateStr : String) (now oid : Nat) (env : NotifEnv) :
    CreateOutcome :=
  if joiOrderValidate d then
    controllerCreateOrder cat store tenantId d dateStr now oid env
  else ⟨.badRequest "Erro de validação" [], store, none⟩

/-! ## Status update controller (orderController.updateOrderStatus) -/

/-- The allowed-transition table keyed by the current status. -/
def validTransitions : Status → List Status
  | .pending => [.confirmed, .cancelled]
  | .confirmed => [.preparing, .cancelled]
  | .preparing => [.delivering, .completed, .cancelled]
  | .delivering => [.completed, .cancelled]
  | .completed => []
  | .cancelled => []

/-- `validTransitions[order.status].includes(status)` for a raw target
string: a string outside the enum is in no row, so parsing first and
then testing membership is extensionally the source's test. -/
def transitionTarget (cur : Status) (target : String) : Option Status :=
  match statusFromString target with
  | none => none
  | some ts => if (validTransitions cur).contains ts then some ts else none

/-- Status-update response: 200, 404, or the 400 invalid-transition
error naming the current and requested status. -/
inductive UpdateResp where
  | ok (status : Status)
  | notFound
  | invalid (msg : String)
deriving Repr, DecidableEq

/-- Observable outcome of a status-update request. -/
structure UpdateOutcome where
  resp : UpdateResp
  store : List Order
  notifCalls : Nat
  notifResult : Option Bool
deriving Repr, DecidableEq

/-- `orderController.updateOrderStatus`: find the order, test the
transition table, persist the new status, then notify the customer
(exactly one call, which never throws). -/
def updateOrderStatusCtl (store : List Order) (tenantId oid : Nat) (target : String)
    (env : NotifEnv) : UpdateOutcome :=
  match findOrderById store tenantId oid with
  | none => ⟨.notFound, store, 0, none⟩
  | some o =>
    match transitionTarget o.status target with
    | none =>
      ⟨.invalid ("Não é possível alterar o status de '" ++ statusToString o.status ++
        "' para '" ++ target ++ "'"), store, 0, none⟩
    | some ts =>
      let o' := { o with status := ts }
      ⟨.ok ts, saveOrder store o', 1, some (notifyStatusChange env)⟩

/-! ## Rating (orderController.rateOrder) -/

/-- `!rating || rating < 1 || rating > 5`. -/
def ratingRejected (rating : Option ℚ) : Bool :=
  match rating with
  | none => true
  | some v => (v == 0) || decide (v < 1) || decide (5 < v)

/-- `order.notes ? order.notes + "\n" + text : text`. -/
def appendNoteText (old : Option String) (entry : String) : String :=
  if jsTruthyS old then old.getD "" ++ "\n" ++ entry else entry

/-- Rating response. -/
inductive RateResp where
  | ok (rating : Option ℚ)
  | badRating
  | notFound
  | notCompleted
deriving Repr, DecidableEq

/-- `orderController.rateOrder`: range check on the raw rating, lookup
by order number, `completed`-status check, then overwrite the rating and
optionally append the comment to the notes. -/
def rateOrderCtl (store : List Order) (tenantId : Nat) (orderNumber : String)
    (rating : Option ℚ) (comment : Option String) : RateResp × List Order :=
  if ratingRejected rating then (.badRating, store)
  else
    match findOrderByNumber store tenantId orderNumber with
    | none => (.notFound, store)
    | some o =>
      if o.status == Status.completed then
        let newNotes : Option String :=
          if jsTruthyS comment then
            some (appendNoteText o.notes ("Avaliação do cliente: " ++ comment.getD ""))
          else o.notes
        let o' : Order := { o with rating := rating, notes := newNotes }
        (.ok o'.rating, saveOrder store o')
      else (.notCompleted, store)

/-! ## Note appending (orderController.addOrderNote) -/

/-- `[timestamp] userName: note`. -/
def noteEntry (timestamp userName note : String) : String :=
  "[" ++ timestamp ++ "] " ++ userName ++ ": " ++ note

/-- Note-append response. -/
inductive NoteResp where
  | ok (notes : String)
  | emptyNote
  | notFound
deriving Repr, DecidableEq

/-- `orderController.addOrderNote`: reject a falsy note with 400, find
the order, append one timestamped entry to the notes and save. -/
def addOrderNoteCtl (store : List Order) (tenantId oid : Nat)
    (userName timestamp : String) (note : Option String) : NoteResp × List Order :=
  if !(jsTruthyS note) then (.emptyNote, store)
  else
    match findOrderById store tenantId oid with
    | none => (.notFound, store)
    | some o =>
      let entry := noteEntry timestamp userName (note.getD "")
      let newNotes := appendNoteText o.notes entry
      let o' : Order := { o with notes := some newNotes }
      (.ok newNotes, saveOrder store o')

/-! ## Statistics (orderService.getOrderStatistics) -/

/-- The `dateFilter`: tenant match and `createdAt` within `[s, e]`. -/
def inWindow (tenantId s e : Nat) (o : Order) : Bool :=
  o.tenantId == tenantId && decide (s ≤ o.createdAt) && decide (o.createdAt ≤ e)

/-- One `byStatus` entry. -/
structure StatusStat where
  count : Nat
  total : ℚ
deriving Repr, DecidableEq

/-- One step of the `$group: { _id: '$status' }` aggregation. -/
def bumpStatus (acc : List (Status × StatusStat)) (o : Order) :
    List (Status × StatusStat) :=
  if acc.any (fun p => p.1 == o.status) then
    acc.map (fun p =>
      if p.1 == o.status then (p.1, ⟨p.2.count + 1, p.2.total + o.total⟩) else p)
  else acc ++ [(o.status, ⟨1, o.total⟩)]

/-- The statistics result. -/
structure OrderStats where
  totalOrders : Nat
  byStatus : List (Status × StatusStat)
  averageTicket : ℚ
  totalSales : ℚ
deriving Repr, DecidableEq

/-- Sum of the totals of a list of orders. -/
def sumTotals (l : List Order) : ℚ := (l.map (fun o => o.total)).sum

/-- Reading one status key out of the `byStatus` association list (the
access `statusStats[status]` of the formatted aggregation result). -/
def lookupStat (acc : List (Status × StatusStat)) (stt : Status) :
    Option StatusStat :=
  (acc.find? (fun p => p.1 == stt)).map (fun p => p.2)

/-- `orderService.getOrderStatistics`: count, per-status group (count and
sum of totals), `$avg` of totals (0 on an empty window), `$sum` of totals
(0 on an empty window). -/
def getOrderStatistics (store : List Order) (tenantId s e : Nat) : OrderStats :=
  let hits := store.filter (inWindow tenantId s e)
  { totalOrders := hits.length
  , byStatus := hits.foldl bumpStatus []
  , averageTicket := if hits.isEmpty then 0 else sumTotals hits / (hits.length : ℚ)
  , totalSales := sumTotals hits }

/-! ## Concurrency model for order creation

Each creation request touches the store twice: `generateOrderNumber`
reads it, and `save` appends to it.  A task is at program counter 0
(about to read), 1 (about to insert with its allocated number), or 2
(done); a schedule is the sequence of task indices taking steps, so any
interleaving of concurrent requests is one schedule. -/

/-- State of one in-flight creation request. -/
structure CreationTask where
  pc : Nat
  num : String
deriving Repr, DecidableEq

/-- Shared store plus the in-flight requests. -/
structure ConcState where
  store : List Order
  tasks : List CreationTask
deriving Repr, DecidableEq

/-- The order inserted by raced request `i` (the non-identifying fields
are fixed: only `tenantId` and `orderNumber` matter to allocation). -/
def mkRacedOrder (tenantId oid : Nat) (num : String) (now : Nat) : Order :=
  { oid := oid, tenantId := tenantId, orderNumber := num, status := .pending,
    customer := ⟨some "Cliente", some "000", none⟩,
    items := [⟨none, "Item", none, 1, 10, []⟩], paymentMethod := some "pix",
    changeFor := none, deliveryFee := 0, subtotal := 10, total := 10,
    rating := none, notes := none, createdAt := now }

/-- One step of task `i`: allocate a number from the current store, or
insert the order carrying the previously allocated number. -/
def stepTask (tenantId : Nat) (dateStr : String) (now : Nat) (st : ConcState)
    (i : Nat) : ConcState :=
  match st.tasks[i]? with
  | none => st
  | some tk =>
    if tk.pc == 0 then
      { st with tasks := st.tasks.set i ⟨1, generateOrderNumber st.store tenantId dateStr⟩ }
    else if tk.pc == 1 then
      { store := st.store ++ [mkRacedOrder tenantId (100 + i) tk.num now],
        tasks := st.tasks.set i ⟨2, tk.num⟩ }
    else st

/-- Run a schedule of `n` concurrent creation requests from an empty
store. -/
def runSched (tenantId : Nat) (dateStr : String) (now n : Nat) (sched : List Nat) :
    ConcState :=
  sched.foldl (stepTask tenantId dateStr now) ⟨[], List.replicate n ⟨0, ""⟩⟩

/-! ## Specification-side definitions (from the spec's wording, for
comparison with the embedded code) -/

/-- The spec's per-item price:
`quantity × (unitPrice + Σ option_price)`. -/
def specItemTotal (it : OrderItem) : ℚ :=
  (it.quantity : ℚ) * (it.unitPrice + (it.options.map (fun op => jsOrQ op.price 0)).sum)

/-- The spec's subtotal: sum of the per-item prices. -/
def specSubtotal (items : List OrderItem) : ℚ := (items.map specItemTotal).sum

/-- The spec's allowed-transition table as a set of (from, to) pairs. -/
def specAllowedPairs : List (Status × Status) :=
  [(.pending, .confirmed), (.pending, .cancelled),
   (.confirmed, .preparing), (.confirmed, .cancelled),
   (.preparing, .delivering), (.preparing, .completed), (.preparing, .cancelled),
   (.delivering, .completed), (.delivering, .cancelled)]

/-! ## Concrete fixtures used by scenario conjuncts and witnesses -/

/-- A complete customer record. -/
def custA : Customer := ⟨some "Ana", some "5599", none⟩

/-- Scenario A line item: quantity 2, unit price 30, one option of
price 5. -/
def itemA : OrderItem :=
  { productId := none, name := "Pizza", flavor := none, quantity := 2,
    unitPrice := 30, options := [⟨"Borda", some 5⟩] }

/-- Scenario A creation input: the single item above, delivery fee 5,
cash without change. -/
def dataA : OrderData :=
  { customer := some custA, items := [itemA], paymentMethod := some "cash",
    changeFor := none, deliveryFee := some 5, notes := none }

/-- A customer with the full trio the route validation requires. -/
def custFull : Customer := ⟨some "Ana", some "5599", some "Rua A, 1"⟩

/-- Scenario C first input: cash with no changeFor, passing the route
validation. -/
def dataCash : OrderData :=
  { customer := some custFull, items := [itemA], paymentMethod := some "cash",
    changeFor := none, deliveryFee := some 5, notes := none }

/-- Scenario C second input: payment by pix carrying `changeFor: 10`,
otherwise identical to `dataCash`, so the changeFor rule is the only
failing check. -/
def dataPixFull : OrderData :=
  { dataCash with paymentMethod := some "pix", changeFor := some 10 }

/-- A pizza product with a single configured size. -/
def pizzaProd : Product := ⟨55, 7, true, "pizza", [⟨"Tamanho G", 40⟩]⟩

/-- A pizza item carrying a price-less option whose name matches the
size heuristic but no configured size. -/
def itemSizeBad : OrderItem :=
  { productId := some 55, name := "Pizza G", flavor := none, quantity := 1,
    unitPrice := 40, options := [⟨"Tamanho Festa", none⟩] }

/-- The same pizza item without the offending option. -/
def itemPlain : OrderItem := { itemSizeBad with options := [] }

/-- Creation input carrying `itemSizeBad`. -/
def dataSizeBad : OrderData :=
  { customer := some custA, items := [itemSizeBad], paymentMethod := some "pix",
    changeFor := none, deliveryFee := none, notes := none }

/-- The same creation input without the offending option. -/
def dataPlain : OrderData := { dataSizeBad with items := [itemPlain] }

/-- A catalog-free item carrying one price-less option. -/
def itemFreeOpt : OrderItem :=
  { productId := none, name := "X-Burger", flavor := none, quantity := 2,
    unitPrice := 30, options := [⟨"Sem cebola", none⟩] }

/-- Creation input carrying `itemFreeOpt`. -/
def dataFreeOpt : OrderData :=
  { customer := some custA, items := [itemFreeOpt], paymentMethod := some "pix",
    changeFor := none, deliveryFee := none, notes := none }

/-- A completed order awaiting a rating. -/
def ordCompleted : Order :=
  { oid := 3, tenantId := 7, orderNumber := "ORD-20261012-003", status := .completed,
    customer := custA, items := [itemA], paymentMethod := some "cash",
    changeFor := none, deliveryFee := 0, subtotal := 70, total := 70,
    rating := none, notes := none, createdAt := 100 }

/-- A pending order for transition tests. -/
def ordPending : Order :=
  { ordCompleted with oid := 4, orderNumber := "ORD-20261012-004", status := .pending }

/-- Scenario E: a completed order of total 75. -/
def ordE1 : Order :=
  { ordCompleted with oid := 5, orderNumber := "ORD-20261012-005", subtotal := 75, total := 75, createdAt := 50 }

/-- Scenario E: a cancelled order of total 40. -/
def ordE2 : Order :=
  { ordCompleted with oid := 6, orderNumber := "ORD-20261012-006", status := .cancelled, subtotal := 40, total := 40, createdAt := 60 }

/-- A notification environment in which every step succeeds. -/
def envOk : NotifEnv := ⟨true, some "5511", true⟩

/-- A notification environment in which the tenant lookup itself fails. -/
def envDown : NotifEnv := ⟨false, none, false⟩

end Mybot

/-! # Theorems -/

/-- The fold computing `optionsSum` equals the sum of the per-option
prices (with falsy prices read as 0). -/
theorem Mybot.optionsSum_eq (opts : List Mybot.ItemOption) :
    Mybot.optionsSum opts = (opts.map (fun o => Mybot.jsOrQ o.price 0)).sum := by
  suffices h : ∀ a : ℚ, opts.foldl (fun s o => s + Mybot.jsOrQ o.price 0) a =
      a + (opts.map (fun o => Mybot.jsOrQ o.price 0)).sum by
    simpa [Mybot.optionsSum] using h 0
  induction opts with
  | nil => intro a; simp
  | cons o rest ih => intro a; simp [ih]; ring

/-- The per-item subtotal factors as
`quantity * (unitPrice + Σ option prices)`. -/
theorem Mybot.itemSubtotal_eq (it : Mybot.OrderItem) :
    Mybot.itemSubtotal it =
      (it.quantity : ℚ) *
        (it.unitPrice + (it.options.map (fun o => Mybot.jsOrQ o.price 0)).sum) := by
  rcases h : it.options with _ | ⟨o, rest⟩ <;>
    simp [Mybot.itemSubtotal, h, Mybot.optionsSum_eq, mul_add, mul_comm]

/-- The per-item subtotal agrees with the spec-side per-item price. -/
theorem Mybot.itemSubtotal_eq_spec (it : Mybot.OrderItem) :
    Mybot.itemSubtotal it = Mybot.specItemTotal it :=
  Mybot.itemSubtotal_eq it

/-- `listStrLt` decides the lexicographic strict order on `List Char`. -/
theorem Mybot.listStrLt_iff : ∀ as bs : List Char,
    Mybot.listStrLt as bs = true ↔ as < bs := by
  intro as
  induction as with
  | nil =>
    intro bs
    cases bs with
    | nil =>
      simp only [Mybot.listStrLt, Bool.false_eq_true, false_iff]
      exact List.Lex.not_nil_right _ _
    | cons b bs =>
      simp only [Mybot.listStrLt, true_iff]
      exact List.Lex.nil
  | cons a as ih =>
    intro bs
    cases bs with
    | nil =>
      simp only [Mybot.listStrLt, Bool.false_eq_true, false_iff]
      exact List.Lex.not_nil_right _ _
    | cons b bs =>
      simp only [Mybot.listStrLt]
      by_cases hab : a < b
      · simp only [hab, if_true, true_iff]
        exact List.Lex.rel hab
      · by_cases hba : b < a
        · simp only [hab, if_false, hba, if_true, Bool.false_eq_true, false_iff]
          intro h
          cases h with
          | cons _ => exact lt_irrefl a hba
          | rel h' => exact hab h'
        · have hEq : a = b := le_antisymm (not_lt.mp hba) (not_lt.mp hab)
          subst hEq
          simp only [hab, hba, if_false, ih bs]
          constructor
          · exact fun h => List.Lex.cons h
          · intro h
            cases h with
            | cons h' => exact h'
            | rel h' => exact absurd h' hab

/-- `strMax` in terms of the linear order on `String`: the left argument
is bounded by the maximum. -/
theorem Mybot.left_le_strMax (a b : String) : a ≤ Mybot.strMax a b := by
  unfold Mybot.strMax
  split
  · rename_i h
    refine le_of_lt ?_
    rw [String.lt_iff_toList_lt]
    exact (Mybot.listStrLt_iff a.data b.data).mp h
  · exact le_refl a

/-- The right argument is bounded by the maximum. -/
theorem Mybot.right_le_strMax (a b : String) : b ≤ Mybot.strMax a b := by
  unfold Mybot.strMax
  split
  · exact le_refl b
  · rename_i h
    rw [← not_lt]
    intro hlt
    rw [String.lt_iff_toList_lt] at hlt
    exact h ((Mybot.listStrLt_iff a.data b.data).mpr hlt)

/-- The maximum of two strings is one of them. -/
theorem Mybot.strMax_eq_or (a b : String) :
    Mybot.strMax a b = a ∨ Mybot.strMax a b = b := by
  unfold Mybot.strMax
  split
  · exact Or.inr rfl
  · exact Or.inl rfl

/-- The fold of `strMax` returns its seed or a list element. -/
theorem Mybot.foldl_strMax_mem : ∀ (xs : List String) (a : String),
    xs.foldl Mybot.strMax a = a ∨ xs.foldl Mybot.strMax a ∈ xs := by
  intro xs
  induction xs with
  | nil => intro a; exact Or.inl rfl
  | cons x xs ih =>
    intro a
    rcases ih (Mybot.strMax a x) with h | h
    · rcases Mybot.strMax_eq_or a x with h' | h'
      · left
        simp only [List.foldl_cons]
        rw [h, h']
      · right
        simp only [List.foldl_cons]
        rw [h, h']
        exact List.mem_cons_self x xs
    · right
      simp only [List.foldl_cons]
      exact List.mem_cons_of_mem x h

/-- The seed is bounded by the fold of `strMax`. -/
theorem Mybot.le_foldl_strMax : ∀ (xs : List String) (a : String),
    a ≤ xs.foldl Mybot.strMax a := by
  intro xs
  induction xs with
  | nil => intro a; exact le_refl a
  | cons x xs ih =>
    intro a
    exact le_trans (Mybot.left_le_strMax a x) (ih (Mybot.strMax a x))

/-- Every list element is bounded by the fold of `strMax`. -/
theorem Mybot.mem_le_foldl_strMax : ∀ (xs : List String) (a : String),
    ∀ x ∈ xs, x ≤ xs.foldl Mybot.strMax a := by
  intro xs
  induction xs with
  | nil => intro a x hx; cases hx
  | cons y xs ih =>
    intro a x hx
    rcases List.mem_cons.mp hx with h | h
    · subst h
      exact le_trans (Mybot.right_le_strMax a x) (Mybot.le_foldl_strMax xs _)
    · exact ih (Mybot.strMax a y) x h

/-- `maxString?` returns exactly the greatest element: if `m` is a member
bounding every member, the fold computes `m`. -/
theorem Mybot.maxString?_eq_some (l : List String) (m : String)
    (hm : m ∈ l) (hub : ∀ x ∈ l, x ≤ m) : Mybot.maxString? l = some m := by
  cases l with
  | nil => cases hm
  | cons x xs =>
    have hMmem : xs.foldl Mybot.strMax x = x ∨ xs.foldl Mybot.strMax x ∈ xs :=
      Mybot.foldl_strMax_mem xs x
    have hMle : xs.foldl Mybot.strMax x ≤ m := by
      rcases hMmem with h | h
      · rw [h]; exact hub x (List.mem_cons_self x xs)
      · exact hub _ (List.mem_cons_of_mem x h)
    have hmle : m ≤ xs.foldl Mybot.strMax x := by
      rcases List.mem_cons.mp hm with h | h
      · subst h; exact Mybot.le_foldl_strMax xs m
      · exact Mybot.mem_le_foldl_strMax xs x m h
    simp [Mybot.maxString?, le_antisymm hMle hmle]

/-- On success, `processItems` returns the spec-side subtotal. -/
theorem Mybot.processItems_ok_sum (cat : List Mybot.Product) (tid : Nat) :
    ∀ (items : List Mybot.OrderItem) (s : ℚ),
      Mybot.processItems cat tid items = .ok s → s = Mybot.specSubtotal items := by
  intro items
  induction items with
  | nil =>
    intro s h
    simp only [Mybot.processItems, Except.ok.injEq] at h
    simp [Mybot.specSubtotal, ← h]
  | cons it rest ih =>
    intro s h
    simp only [Mybot.processItems] at h
    cases hc : Mybot.checkItem cat tid it with
    | error e => rw [hc] at h; exact Except.noConfusion h
    | ok u =>
      rw [hc] at h
      cases hr : Mybot.processItems cat tid rest with
      | error e => rw [hr] at h; exact Except.noConfusion h
      | ok s' =>
        rw [hr] at h
        simp only [Except.ok.injEq] at h
        rw [← h, ih s' hr]
        simp [Mybot.specSubtotal, Mybot.itemSubtotal_eq_spec]

/-- Elimination principle for a successful `createOrderSvc` call: the
persisted order carries the computed pricing, the input payload verbatim,
initial status `pending`, the allocated number, and is appended to the
store. -/
theorem Mybot.createOrderSvc_ok (cat : List Mybot.Product) (store : List Mybot.Order)
    (tid : Nat) (d : Mybot.OrderData) (ds : String) (now oid : Nat)
    (o : Mybot.Order) (st' : List Mybot.Order)
    (h : Mybot.createOrderSvc cat store tid d ds now oid = .ok (o, st')) :
    o.subtotal = Mybot.specSubtotal d.items ∧
    o.total = o.subtotal + Mybot.jsOrQ d.deliveryFee 0 ∧
    o.changeFor = d.changeFor ∧
    o.paymentMethod = d.paymentMethod ∧
    o.items = d.items ∧
    o.notes = d.notes ∧
    o.status = .pending ∧
    o.orderNumber = Mybot.generateOrderNumber store tid ds ∧
    st' = store ++ [o] := by
  unfold Mybot.createOrderSvc at h
  split at h
  · exact Except.noConfusion h
  split at h
  · exact Except.noConfusion h
  split at h
  · exact Except.noConfusion h
  rename_i s hs
  dsimp only at h
  split at h
  · simp only [Except.ok.injEq, Prod.mk.injEq] at h
    obtain ⟨ho, hst⟩ := h
    subst ho
    exact ⟨Mybot.processItems_ok_sum cat tid d.items s hs, rfl, rfl, rfl,
      rfl, rfl, rfl, rfl, hst.symm⟩
  · exact Except.noConfusion h

/-- C1: for every order-creation input accepted by the service, the
persisted order satisfies `subtotal = Σ quantityᵢ × (unitPriceᵢ + Σ
option prices)` and `total = subtotal + deliveryFee` (defaulting to 0
when absent); in particular Scenario A — one item of quantity 2, unit
price 30, one option of price 5, delivery fee 5 — yields subtotal 70
and total 75. -/
theorem Mybot.C1_pricing :
    (∀ (cat : List Mybot.Product) (store : List Mybot.Order) (tid : Nat)
        (d : Mybot.OrderData) (ds : String) (now oid : Nat),
        (Mybot.createOrderSvc cat store tid d ds now oid).toOption.map
            (fun p => (p.1.subtotal, p.1.total)) =
          (Mybot.createOrderSvc cat store tid d ds now oid).toOption.map
            (fun _ => (Mybot.specSubtotal d.items,
              Mybot.specSubtotal d.items + Mybot.jsOrQ d.deliveryFee 0))) ∧
    (Mybot.createOrderSvc [] [] 7 Mybot.dataA "20261012" 100 1).toOption.map
        (fun p => (p.1.subtotal, p.1.total)) = some (70, 75) := by
  have hg : ∀ (cat : List Mybot.Product) (store : List Mybot.Order) (tid : Nat)
      (d : Mybot.OrderData) (ds : String) (now oid : Nat),
      (Mybot.createOrderSvc cat store tid d ds now oid).toOption.map
          (fun p => (p.1.subtotal, p.1.total)) =
        (Mybot.createOrderSvc cat store tid d ds now oid).toOption.map
          (fun _ => (Mybot.specSubtotal d.items,
            Mybot.specSubtotal d.items + Mybot.jsOrQ d.deliveryFee 0)) := by
    intro cat store tid d ds now oid
    cases h : Mybot.createOrderSvc cat store tid d ds now oid with
    | error e => rfl
    | ok p =>
      obtain ⟨o, st'⟩ := p
      obtain ⟨h1, h2, _⟩ := Mybot.createOrderSvc_ok cat store tid d ds now oid o st' h
      have h3 : o.total = Mybot.specSubtotal d.items + Mybot.jsOrQ d.deliveryFee 0 := by
        rw [h2, h1]
      simp [Except.toOption, h1, h3]
  refine ⟨hg, ?_⟩
  rw [hg [] [] 7 Mybot.dataA "20261012" 100 1]
  have hs : Mybot.specSubtotal Mybot.dataA.items = 70 := by
    norm_num [Mybot.specSubtotal, Mybot.specItemTotal, Mybot.dataA, Mybot.itemA,
      Mybot.jsOrQ]
  have hj : Mybot.jsOrQ Mybot.dataA.deliveryFee 0 = 5 := by
    norm_num [Mybot.dataA, Mybot.jsOrQ]
  rw [hs, hj]
  have hsome : (Mybot.createOrderSvc [] [] 7 Mybot.dataA "20261012" 100 1).toOption.isSome
      = true := by decide
  rcases ho : (Mybot.createOrderSvc [] [] 7 Mybot.dataA "20261012" 100 1).toOption
    with _ | p
  · rw [ho] at hsome; cases hsome
  · simp only [Option.map_some']
    norm_num

/-- C4: order creation (Joi route middleware then controller) enforces
the changeFor/paymentMethod pairing: any input whose payment method is
not `"cash"` but which carries a `changeFor` value is rejected with the
400 `"Erro de validação"` response and an unchanged store (no order
persisted); with `"cash"` the validation never reads `changeFor`;
concretely, cash without changeFor creates and persists an order while
pix with changeFor 10 is rejected leaving the store empty. -/
theorem Mybot.C4_changeFor_iff_cash :
    (∀ (cat : List Mybot.Product) (store : List Mybot.Order) (tid : Nat)
        (d : Mybot.OrderData) (ds : String) (now oid : Nat) (env : Mybot.NotifEnv),
        d.paymentMethod ≠ some "cash" → d.changeFor.isSome = true →
        Mybot.routeCreateOrder cat store tid d ds now oid env =
          ⟨.badRequest "Erro de validação" [], store, none⟩) ∧
    (∀ (d : Mybot.OrderData) (cf cf' : Option ℚ),
        Mybot.joiOrderValidate
            { d with paymentMethod := some "cash", changeFor := cf } =
          Mybot.joiOrderValidate
            { d with paymentMethod := some "cash", changeFor := cf' }) ∧
    ((Mybot.routeCreateOrder [] [] 7 Mybot.dataCash "20261012" 100 1
        Mybot.envOk).store.map (fun o => o.orderNumber) = ["ORD-20261012-001"] ∧
      (Mybot.routeCreateOrder [] [] 7 Mybot.dataCash "20261012" 100 1
        Mybot.envOk).notifResult = some true) ∧
    (Mybot.routeCreateOrder [] [] 7 Mybot.dataPixFull "20261012" 100 1 Mybot.envOk =
      ⟨.badRequest "Erro de validação" [], [], none⟩) := by
  refine ⟨?_, fun d cf cf' => rfl, ⟨by decide, by decide⟩, by decide⟩
  intro cat store tid d ds now oid env hpm hcf
  have h1 : (d.paymentMethod == some "cash") = false := by
    rw [beq_eq_false_iff_ne]
    exact hpm
  have h2 : d.changeFor.isNone = false := by
    cases hc : d.changeFor with
    | none => rw [hc] at hcf; cases hcf
    | some v => rfl
  have hjoi : Mybot.joiOrderValidate d = false := by
    unfold Mybot.joiOrderValidate
    simp [h1, h2]
  simp [Mybot.routeCreateOrder, hjoi]

/-- Witness for C4 at the concrete pix input carrying changeFor 10. -/
theorem Mybot.C4_changeFor_iff_cash_witness :
    Mybot.dataPixFull.paymentMethod ≠ some "cash" ∧
    Mybot.dataPixFull.changeFor.isSome = true ∧
    Mybot.routeCreateOrder [] [] 7 Mybot.dataPixFull "20261012" 100 1 Mybot.envOk =
      ⟨.badRequest "Erro de validação" [], [], none⟩ :=
  ⟨by decide, by decide,
    Mybot.C4_changeFor_iff_cash.1 [] [] 7 Mybot.dataPixFull "20261012" 100 1
      Mybot.envOk (by decide) (by decide)⟩

/-- C5: the order-number race.  Two concurrent creation requests for the
same tenant and date that both read the store before either inserts
(schedule task 0 gen, task 1 gen, task 0 ins, task 1 ins) receive the same number
`ORD-20261012-001`, violating the required distinct consecutive 1..N
numbering; the serialized schedule produces 001 then 002.  The claim's
required atomic serialization is absent from the code's
find-then-compute-then-insert allocation. -/
theorem Mybot.C5_race :
    ((Mybot.runSched 7 "20261012" 100 2 [0, 1, 0, 1]).store.map
        (fun o => o.orderNumber) = ["ORD-20261012-001", "ORD-20261012-001"]) ∧
    ¬ ((Mybot.runSched 7 "20261012" 100 2 [0, 1, 0, 1]).store.map
        (fun o => o.orderNumber)).Pairwise (· ≠ ·) ∧
    ((Mybot.runSched 7 "20261012" 100 2 [0, 0, 1, 1]).store.map
        (fun o => o.orderNumber) = ["ORD-20261012-001", "ORD-20261012-002"]) := by
  refine ⟨by decide, by decide, by decide⟩

/-- C9: notification outcomes never affect the triggering mutation —
creation and status-update responses and stores are identical under any
two notification environments; concretely, with the tenant lookup
failing the creation still answers as with a healthy environment and
the order is persisted, and a status update still persists the new
status. -/
theorem Mybot.C9_notification_isolated :
    (∀ (cat : List Mybot.Product) (store : List Mybot.Order) (tid : Nat)
        (d : Mybot.OrderData) (ds : String) (now oid : Nat)
        (env env' : Mybot.NotifEnv),
        (Mybot.controllerCreateOrder cat store tid d ds now oid env).resp =
          (Mybot.controllerCreateOrder cat store tid d ds now oid env').resp ∧
        (Mybot.controllerCreateOrder cat store tid d ds now oid env).store =
          (Mybot.controllerCreateOrder cat store tid d ds now oid env').store) ∧
    (∀ (store : List Mybot.Order) (tid oid : Nat) (target : String)
        (env env' : Mybot.NotifEnv),
        (Mybot.updateOrderStatusCtl store tid oid target env).resp =
          (Mybot.updateOrderStatusCtl store tid oid target env').resp ∧
        (Mybot.updateOrderStatusCtl store tid oid target env).store =
          (Mybot.updateOrderStatusCtl store tid oid target env').store) ∧
    ((Mybot.controllerCreateOrder [] [] 7 Mybot.dataA "20261012" 100 1
        Mybot.envDown).notifResult = some false ∧
      (Mybot.controllerCreateOrder [] [] 7 Mybot.dataA "20261012" 100 1
        Mybot.envDown).store.map (fun o => o.orderNumber) = ["ORD-20261012-001"] ∧
      (Mybot.controllerCreateOrder [] [] 7 Mybot.dataA "20261012" 100 1
        Mybot.envDown).resp =
        (Mybot.controllerCreateOrder [] [] 7 Mybot.dataA "20261012" 100 1
          Mybot.envOk).resp) ∧
    ((Mybot.updateOrderStatusCtl [Mybot.ordPending] 7 4 "confirmed"
        Mybot.envDown).notifResult = some false ∧
      (Mybot.updateOrderStatusCtl [Mybot.ordPending] 7 4 "confirmed"
        Mybot.envDown).store.map (fun o => o.status) = [Mybot.Status.confirmed] ∧
      (Mybot.updateOrderStatusCtl [Mybot.ordPending] 7 4 "confirmed"
        Mybot.envDown).resp = .ok .confirmed) := by
  refine ⟨?_, ?_, ⟨by decide, by decide, rfl⟩, ⟨by decide, by decide, by decide⟩⟩
  · intro cat store tid d ds now oid env env'
    cases h : Mybot.createOrderSvc cat store tid d ds now oid with
    | error e => simp [Mybot.controllerCreateOrder, h]
    | ok p => simp [Mybot.controllerCreateOrder, h]
  · intro store tid oid target env env'
    cases h : Mybot.findOrderById store tid oid with
    | none => simp [Mybot.updateOrderStatusCtl, h]
    | some o =>
      cases ht : Mybot.transitionTarget o.status target with
      | none => simp [Mybot.updateOrderStatusCtl, h, ht]
      | some ts => simp [Mybot.updateOrderStatusCtl, h, ht]

/-- A falsy option price reads as 0. -/
theorem Mybot.jsOrQ_falsy (p : Option ℚ) (h : Mybot.jsTruthyQ p = false) :
    Mybot.jsOrQ p 0 = 0 := by
  cases p with
  | none => rfl
  | some v =>
    simp only [Mybot.jsTruthyQ, Bool.not_eq_false', decide_eq_true_eq] at h
    simp [Mybot.jsOrQ, h]

/-- The size-option detector reads only the option name. -/
theorem Mybot.isSizeOption_name (op : Mybot.ItemOption) (p : Option ℚ) :
    Mybot.isSizeOption ⟨op.name, p⟩ = Mybot.isSizeOption op := rfl

/-- `find? isSizeOption` commutes with a price-only rewrite of the
option list. -/
theorem Mybot.find?_isSizeOption_map (opts : List Mybot.ItemOption)
    (f : Mybot.ItemOption → Option ℚ) :
    (opts.map (fun op => (⟨op.name, f op⟩ : Mybot.ItemOption))).find?
        Mybot.isSizeOption =
      (opts.find? Mybot.isSizeOption).map (fun op => (⟨op.name, f op⟩ : Mybot.ItemOption)) := by
  induction opts with
  | nil => rfl
  | cons op rest ih =>
    simp only [List.map_cons, List.find?_cons]
    rw [Mybot.isSizeOption_name]
    cases h : Mybot.isSizeOption op with
    | true => simp
    | false => simpa using ih

/-- The per-item validation never reads option prices: rewriting every
option's price leaves `checkItem` unchanged. -/
theorem Mybot.checkItem_price_blind (cat : List Mybot.Product) (tid : Nat) :
    ∀ (pid : Option Nat) (nm : String) (fl : Option String) (q : Nat) (up : ℚ)
      (opts : List Mybot.ItemOption) (f : Mybot.ItemOption → Option ℚ),
      Mybot.checkItem cat tid
          ⟨pid, nm, fl, q, up, opts.map (fun op => ⟨op.name, f op⟩)⟩ =
        Mybot.checkItem cat tid ⟨pid, nm, fl, q, up, opts⟩ := by
  intro pid nm fl q up opts f
  cases pid with
  | none => rfl
  | some pid =>
    simp only [Mybot.checkItem]
    cases hfp : Mybot.findProduct cat tid pid with
    | none => rfl
    | some product =>
      have hie : (opts.map (fun op => (⟨op.name, f op⟩ : Mybot.ItemOption))).isEmpty
          = opts.isEmpty := by
        cases opts <;> rfl
      rw [hie, Mybot.find?_isSizeOption_map]
      cases hfind : opts.find? Mybot.isSizeOption with
      | none => rfl
      | some so => rfl

/-- C10 counterexample: a price-less option is not always harmless — on
a pizza item its *name* can trip the size validation: with the option
`{name: "Tamanho Festa"}` (no price) creation fails and no order is
created, while the identical input without that option succeeds. -/
theorem Mybot.C10_counterexample :
    Mybot.createOrderSvc [Mybot.pizzaProd] [] 7 Mybot.dataSizeBad "20261012" 100 1 =
      .error ⟨"validation", "Tamanho de pizza inválido: Tamanho Festa",
        ["items.options"]⟩ ∧
    (Mybot.createOrderSvc [Mybot.pizzaProd] [] 7 Mybot.dataPlain "20261012" 100 1).toOption.isSome = true :=
  ⟨by decide, by decide⟩

/-- C10 (amended): an option with an absent or zero (falsy) price
contributes exactly 0 to the computed subtotal, the per-item validation
never reads option prices (so a missing price alone cannot fail
validation), and a created order records the input items with their
options verbatim; concretely, a catalog-free item with one price-less
option is accepted, priced `quantity × unitPrice`, with the option
recorded.  (Such an option can still fail validation through its name —
see the counterexample.) -/
theorem Mybot.C10_falsy_option_price :
    (∀ (it : Mybot.OrderItem) (nm : String) (opts1 opts2 : List Mybot.ItemOption),
        Mybot.itemSubtotal { it with options := opts1 ++ ⟨nm, none⟩ :: opts2 } =
          Mybot.itemSubtotal { it with options := opts1 ++ opts2 } ∧
        Mybot.itemSubtotal { it with options := opts1 ++ ⟨nm, some 0⟩ :: opts2 } =
          Mybot.itemSubtotal { it with options := opts1 ++ opts2 }) ∧
    (∀ (cat : List Mybot.Product) (tid : Nat) (pid : Option Nat) (nm : String)
        (fl : Option String) (q : Nat) (up : ℚ) (opts : List Mybot.ItemOption)
        (f : Mybot.ItemOption → Option ℚ),
        Mybot.checkItem cat tid
            ⟨pid, nm, fl, q, up, opts.map (fun op => ⟨op.name, f op⟩)⟩ =
          Mybot.checkItem cat tid ⟨pid, nm, fl, q, up, opts⟩) ∧
    (∀ (cat : List Mybot.Product) (store : List Mybot.Order) (tid : Nat)
        (d : Mybot.OrderData) (ds : String) (now oid : Nat),
        (Mybot.createOrderSvc cat store tid d ds now oid).toOption.map
            (fun p => p.1.items) =
          (Mybot.createOrderSvc cat store tid d ds now oid).toOption.map
            (fun _ => d.items)) ∧
    ((Mybot.createOrderSvc [] [] 7 Mybot.dataFreeOpt "20261012" 100 1).toOption.map
        (fun p => (p.1.subtotal, p.1.items)) = some (60, [Mybot.itemFreeOpt])) := by
  refine ⟨?_, Mybot.checkItem_price_blind, ?_, ?_⟩
  · intro it nm opts1 opts2
    constructor <;>
    · rw [Mybot.itemSubtotal_eq, Mybot.itemSubtotal_eq]
      simp [Mybot.jsOrQ]
  · intro cat store tid d ds now oid
    cases h : Mybot.createOrderSvc cat store tid d ds now oid with
    | error e => rfl
    | ok p =>
      obtain ⟨o, st'⟩ := p
      obtain ⟨_, _, _, _, h5, _⟩ :=
        Mybot.createOrderSvc_ok cat store tid d ds now oid o st' h
      simp [Except.toOption, h5]
  · have hg : ∀ (cat : List Mybot.Product) (store : List Mybot.Order) (tid : Nat)
        (d : Mybot.OrderData) (ds : String) (now oid : Nat),
        (Mybot.createOrderSvc cat store tid d ds now oid).toOption.map
            (fun p => (p.1.subtotal, p.1.items)) =
          (Mybot.createOrderSvc cat store tid d ds now oid).toOption.map
            (fun _ => (Mybot.specSubtotal d.items, d.items)) := by
      intro cat store tid d ds now oid
      cases h : Mybot.createOrderSvc cat store tid d ds now oid with
      | error e => rfl
      | ok p =>
        obtain ⟨o, st'⟩ := p
        obtain ⟨h1, _, _, _, h5, _⟩ :=
          Mybot.createOrderSvc_ok cat store tid d ds now oid o st' h
        simp [Except.toOption, h1, h5]
    rw [hg [] [] 7 Mybot.dataFreeOpt "20261012" 100 1]
    have hs : Mybot.specSubtotal Mybot.dataFreeOpt.items = 60 := by
      norm_num [Mybot.specSubtotal, Mybot.specItemTotal, Mybot.dataFreeOpt,
        Mybot.itemFreeOpt, Mybot.jsOrQ]
    rw [hs]
    have hsome : (Mybot.createOrderSvc [] [] 7 Mybot.dataFreeOpt "20261012" 100 1).toOption.isSome = true := by decide
    rcases ho : (Mybot.createOrderSvc [] [] 7 Mybot.dataFreeOpt "20261012" 100 1).toOption with _ | p
    · rw [ho] at hsome; cases hsome
    · simp [Mybot.dataFreeOpt]

/-- The controller's transition rows coincide with the spec's
allowed-pair table. -/
theorem Mybot.contains_validTransitions_iff (cur ts : Mybot.Status) :
    (Mybot.validTransitions cur).contains ts = true ↔
      (cur, ts) ∈ Mybot.specAllowedPairs := by
  cases cur <;> cases ts <;> decide

/-- C3: a status update on a stored order succeeds exactly when the
(current, requested) pair is in the allowed-transition table; on success
the new status is persisted and exactly one customer notification call
is made, and on any other request the controller answers the
invalid-transition error naming the current and requested status with
the store unchanged and no notification. -/
theorem Mybot.C3_transitions :
    ∀ (store : List Mybot.Order) (tid oid : Nat) (target : String)
      (env : Mybot.NotifEnv) (o : Mybot.Order),
      Mybot.findOrderById store tid oid = some o →
      (∀ ts, Mybot.statusFromString target = some ts →
          (o.status, ts) ∈ Mybot.specAllowedPairs →
          Mybot.updateOrderStatusCtl store tid oid target env =
            ⟨.ok ts, Mybot.saveOrder store { o with status := ts }, 1,
              some (Mybot.notifyStatusChange env)⟩) ∧
      ((∀ ts, Mybot.statusFromString target = some ts →
          (o.status, ts) ∉ Mybot.specAllowedPairs) →
          Mybot.updateOrderStatusCtl store tid oid target env =
            ⟨.invalid ("Não é possível alterar o status de '" ++
              Mybot.statusToString o.status ++ "' para '" ++ target ++ "'"),
              store, 0, none⟩) := by
  intro store tid oid target env o hfind
  constructor
  · intro ts hts hmem
    have hc : (Mybot.validTransitions o.status).contains ts = true :=
      (Mybot.contains_validTransitions_iff o.status ts).mpr hmem
    have hm : ts ∈ Mybot.validTransitions o.status := by simpa using hc
    simp [Mybot.updateOrderStatusCtl, hfind, Mybot.transitionTarget, hts, hm]
  · intro hno
    cases hts : Mybot.statusFromString target with
    | none =>
      simp [Mybot.updateOrderStatusCtl, hfind, Mybot.transitionTarget, hts]
    | some ts =>
      have hm : ts ∉ Mybot.validTransitions o.status := by
        intro hmm
        have hc : (Mybot.validTransitions o.status).contains ts = true := by
          simpa using hmm
        exact absurd ((Mybot.contains_validTransitions_iff o.status ts).mp hc)
          (hno ts hts)
      simp [Mybot.updateOrderStatusCtl, hfind, Mybot.transitionTarget, hts, hm]

/-- Witness for C3 at a concrete input: a pending order moved to
`confirmed`. -/
theorem Mybot.C3_transitions_witness :
    Mybot.findOrderById [Mybot.ordPending] 7 4 = some Mybot.ordPending ∧
    Mybot.updateOrderStatusCtl [Mybot.ordPending] 7 4 "confirmed" Mybot.envOk =
      ⟨.ok .confirmed,
        Mybot.saveOrder [Mybot.ordPending] { Mybot.ordPending with status := .confirmed },
        1, some (Mybot.notifyStatusChange Mybot.envOk)⟩ :=
  ⟨rfl, (Mybot.C3_transitions [Mybot.ordPending] 7 4 "confirmed" Mybot.envOk
      Mybot.ordPending rfl).1 .confirmed rfl (by decide)⟩

/-- The controller's rating guard `!rating || rating < 1 || rating > 5`
passes exactly the numbers in the closed interval [1, 5]. -/
theorem Mybot.ratingRejected_eq_false_iff (r : Option ℚ) :
    Mybot.ratingRejected r = false ↔ ∃ v, r = some v ∧ 1 ≤ v ∧ v ≤ 5 := by
  cases r with
  | none => simp [Mybot.ratingRejected]
  | some v =>
    simp only [Mybot.ratingRejected, Bool.or_eq_false_iff, decide_eq_false_iff_not,
      not_lt, Option.some.injEq]
    constructor
    · rintro ⟨⟨hne, h1⟩, h5⟩
      exact ⟨v, rfl, h1, h5⟩
    · rintro ⟨w, hw, h1, h5⟩
      cases hw
      refine ⟨⟨?_, h1⟩, h5⟩
      have : v ≠ 0 := by
        intro h0
        rw [h0] at h1
        norm_num at h1
      simp [this]

/-- C7 counterexample: the rating 9/2 is not an integer, yet rating a
completed order with it succeeds — the claim's "integer in 1–5"
precondition does not match the code, which only range-checks. -/
theorem Mybot.C7_counterexample :
    (Mybot.rateOrderCtl [Mybot.ordCompleted] 7 "ORD-20261012-003"
        (some (mkRat 9 2)) none).1 = .ok (some (mkRat 9 2)) ∧
    (mkRat 9 2).den = 2 :=
  ⟨by decide, by decide⟩

/-- C7 (amended): rating an order found in the store succeeds exactly
when the rating value is a number in [1, 5] (integrality is not
checked) and the order's status is `completed`; any failure leaves the
store unchanged; a successful call overwrites the stored rating
unconditionally (so repeated calls simply overwrite). -/
theorem Mybot.C7_rating :
    ∀ (store : List Mybot.Order) (tid : Nat) (onum : String) (r : Option ℚ)
      (c : Option String) (o : Mybot.Order),
      Mybot.findOrderByNumber store tid onum = some o →
      (((Mybot.rateOrderCtl store tid onum r c).1 = .ok r) ↔
        ((∃ v, r = some v ∧ 1 ≤ v ∧ v ≤ 5) ∧ o.status = .completed)) ∧
      ((Mybot.rateOrderCtl store tid onum r c).1 ≠ .ok r →
        (Mybot.rateOrderCtl store tid onum r c).2 = store) ∧
      ((∃ v, r = some v ∧ 1 ≤ v ∧ v ≤ 5) → o.status = .completed →
        Mybot.rateOrderCtl store tid onum r none =
          (.ok r, Mybot.saveOrder store { o with rating := r })) := by
  intro store tid onum r c o hfind
  refine ⟨?_, ?_, ?_⟩
  · cases hrej : Mybot.ratingRejected r with
    | true =>
      have hne : ¬ ∃ v, r = some v ∧ 1 ≤ v ∧ v ≤ 5 := by
        intro hex
        rw [(Mybot.ratingRejected_eq_false_iff r).mpr hex] at hrej
        cases hrej
      simp [Mybot.rateOrderCtl, hrej, hne]
    | false =>
      cases hst : (o.status == Mybot.Status.completed) with
      | true =>
        have hsteq : o.status = Mybot.Status.completed := by simpa using hst
        simp [Mybot.rateOrderCtl, hrej, hfind, hst, hsteq,
          (Mybot.ratingRejected_eq_false_iff r).mp hrej]
      | false =>
        have hstne : ¬ o.status = Mybot.Status.completed := by simpa using hst
        simp [Mybot.rateOrderCtl, hrej, hfind, hst, hstne]
  · cases hrej : Mybot.ratingRejected r with
    | true => intro h; simp [Mybot.rateOrderCtl, hrej]
    | false =>
      cases hst : (o.status == Mybot.Status.completed) with
      | true =>
        intro hresp
        exfalso
        apply hresp
        simp [Mybot.rateOrderCtl, hrej, hfind, hst]
      | false =>
        intro h
        simp [Mybot.rateOrderCtl, hrej, hfind, hst]
  · rintro hok hst
    have hrej : Mybot.ratingRejected r = false :=
      (Mybot.ratingRejected_eq_false_iff r).mpr hok
    have hbeq : (o.status == Mybot.Status.completed) = true := by simp [hst]
    simp [Mybot.rateOrderCtl, hrej, hfind, hbeq, Mybot.jsTruthyS]

/-- Witness for C7 at a concrete input: rating 3 on a completed order. -/
theorem Mybot.C7_rating_witness :
    Mybot.findOrderByNumber [Mybot.ordCompleted] 7 "ORD-20261012-003" =
      some Mybot.ordCompleted ∧
    Mybot.rateOrderCtl [Mybot.ordCompleted] 7 "ORD-20261012-003" (some 3) none =
      (.ok (some 3),
        Mybot.saveOrder [Mybot.ordCompleted] { Mybot.ordCompleted with rating := some 3 }) :=
  ⟨rfl, (Mybot.C7_rating [Mybot.ordCompleted] 7 "ORD-20261012-003" (some 3) none
      Mybot.ordCompleted rfl).2.2 ⟨3, rfl, by norm_num, by norm_num⟩ rfl⟩

/-- A timestamped note entry is never the empty string. -/
theorem Mybot.noteEntry_ne_empty (t u n : String) : Mybot.noteEntry t u n ≠ "" := by
  intro h
  have hd := congrArg String.data h
  simp [Mybot.noteEntry, String.data_append] at hd

/-- Saving an order found by `_id` makes the saved version the one found
afterwards. -/
theorem Mybot.findOrderById_saveOrder :
    ∀ (store : List Mybot.Order) (tid oid : Nat) (o o' : Mybot.Order),
      Mybot.findOrderById store tid oid = some o →
      o'.oid = o.oid → o'.tenantId = o.tenantId →
      Mybot.findOrderById (Mybot.saveOrder store o') tid oid = some o' := by
  intro store
  induction store with
  | nil => intro tid oid o o' h _ _; simp [Mybot.findOrderById] at h
  | cons x xs ih =>
    intro tid oid o o' h hoid htid
    have hsave : Mybot.saveOrder (x :: xs) o' =
        (if (x.oid == o'.oid) then o' else x) :: Mybot.saveOrder xs o' := rfl
    by_cases hx : (x.oid == oid && x.tenantId == tid) = true
    · have hxo : x = o := by
        have := List.find?_cons_of_pos (p := fun w =>
          w.oid == oid && w.tenantId == tid) xs hx
        rw [Mybot.findOrderById, this] at h
        exact (Option.some.inj h)
      have hbeq : (x.oid == o'.oid) = true := by
        simp only [beq_iff_eq]
        rw [hxo, hoid]
      have hpred : (o'.oid == oid && o'.tenantId == tid) = true := by
        simp only [Bool.and_eq_true, beq_iff_eq] at hx ⊢
        subst hxo
        exact ⟨hoid.trans hx.1, htid.trans hx.2⟩
      rw [Mybot.findOrderById, hsave, if_pos hbeq]
      exact List.find?_cons_of_pos _ hpred
    · have hxf : (x.oid == oid && x.tenantId == tid) = false := by
        simpa using hx
      have hxs : Mybot.findOrderById xs tid oid = some o := by
        have := List.find?_cons_of_neg (p := fun w =>
          w.oid == oid && w.tenantId == tid) xs hx
        rw [Mybot.findOrderById, this] at h
        exact h
      have hxs' : List.find? (fun w => w.oid == oid && w.tenantId == tid) xs
          = some o := hxs
      by_cases hb : (x.oid == o'.oid) = true
      · have ho0 := List.find?_some hxs'
        have ho : (o.oid == oid && o.tenantId == tid) = true := ho0
        have hpred : (o'.oid == oid && o'.tenantId == tid) = true := by
          simp only [Bool.and_eq_true, beq_iff_eq] at ho ⊢
          exact ⟨hoid.trans ho.1, htid.trans ho.2⟩
        rw [Mybot.findOrderById, hsave, if_pos hb]
        exact List.find?_cons_of_pos _ hpred
      · rw [Mybot.findOrderById, hsave, if_neg hb]
        have := ih tid oid o o' hxs hoid htid
        rw [List.find?_cons_of_neg (Mybot.saveOrder xs o') hx]
        exact this

/-- C8: appending an empty (falsy) note is rejected with the store
unchanged; a non-empty note appends exactly one timestamped entry to the
order's notes, leaving every other field unchanged; two successive
appends produce the two entries concatenated in append order; and at a
concrete input the two entries are distinct. -/
theorem Mybot.C8_notes :
    ∀ (store : List Mybot.Order) (tid oid : Nat) (user t1 t2 : String),
      (∀ note, Mybot.jsTruthyS note = false →
        Mybot.addOrderNoteCtl store tid oid user t1 note = (.emptyNote, store)) ∧
      (∀ (o : Mybot.Order) (n1 : String),
        Mybot.findOrderById store tid oid = some o → ¬(n1 = "") →
        Mybot.addOrderNoteCtl store tid oid user t1 (some n1) =
          (.ok (Mybot.appendNoteText o.notes (Mybot.noteEntry t1 user n1)),
            Mybot.saveOrder store
              { o with notes := some (Mybot.appendNoteText o.notes (Mybot.noteEntry t1 user n1)) })) ∧
      (∀ (o : Mybot.Order) (n1 n2 : String),
        Mybot.findOrderById store tid oid = some o →
        o.notes = none → ¬(n1 = "") → ¬(n2 = "") →
        (Mybot.addOrderNoteCtl
            (Mybot.addOrderNoteCtl store tid oid user t1 (some n1)).2
            tid oid user t2 (some n2)).1 =
          .ok (Mybot.noteEntry t1 user n1 ++ "\n" ++ Mybot.noteEntry t2 user n2)) ∧
      ((Mybot.addOrderNoteCtl
          (Mybot.addOrderNoteCtl [Mybot.ordPending] 7 4 "Admin" "T1"
            (some "nota um")).2 7 4 "Admin" "T2" (some "nota dois")).1 =
        .ok "[T1] Admin: nota um\n[T2] Admin: nota dois" ∧
        "[T1] Admin: nota um" ≠ "[T2] Admin: nota dois") := by
  intro store tid oid user t1 t2
  have hb : ∀ (st : List Mybot.Order) (ts : String) (o : Mybot.Order) (n : String),
      Mybot.findOrderById st tid oid = some o → ¬(n = "") →
      Mybot.addOrderNoteCtl st tid oid user ts (some n) =
        (.ok (Mybot.appendNoteText o.notes (Mybot.noteEntry ts user n)),
          Mybot.saveOrder st
            { o with notes := some (Mybot.appendNoteText o.notes (Mybot.noteEntry ts user n)) }) := by
    intro st ts o n hfind hne
    have ht : Mybot.jsTruthyS (some n) = true := by simp [Mybot.jsTruthyS, hne]
    simp [Mybot.addOrderNoteCtl, ht, hfind]
  refine ⟨?_, fun o n1 hf hn => hb store t1 o n1 hf hn, ?_, by decide, by decide⟩
  · intro note hn
    simp [Mybot.addOrderNoteCtl, hn]
  · intro o n1 n2 hfind hnotes hn1 hn2
    have h1 := hb store t1 o n1 hfind hn1
    have hfind2 : Mybot.findOrderById
        (Mybot.saveOrder store
          { o with notes := some (Mybot.appendNoteText o.notes (Mybot.noteEntry t1 user n1)) })
        tid oid =
        some { o with notes := some (Mybot.appendNoteText o.notes (Mybot.noteEntry t1 user n1)) } :=
      Mybot.findOrderById_saveOrder store tid oid o _ hfind rfl rfl
    have h2 := hb _ t2 _ n2 hfind2 hn2
    rw [h1]
    dsimp only
    rw [h2]
    dsimp only
    rw [hnotes]
    have he1 : ¬ (Mybot.noteEntry t1 user n1 = "") := Mybot.noteEntry_ne_empty t1 user n1
    simp [Mybot.appendNoteText, Mybot.jsTruthyS, he1]

/-- Witness for C8 at a concrete input: two successive note appends on a
pending order without notes. -/
theorem Mybot.C8_notes_witness :
    Mybot.findOrderById [Mybot.ordPending] 7 4 = some Mybot.ordPending ∧
    Mybot.ordPending.notes = none ∧
    (Mybot.addOrderNoteCtl
        (Mybot.addOrderNoteCtl [Mybot.ordPending] 7 4 "Admin" "T1" (some "nota um")).2
        7 4 "Admin" "T2" (some "nota dois")).1 =
      .ok (Mybot.noteEntry "T1" "Admin" "nota um" ++ "\n" ++
        Mybot.noteEntry "T2" "Admin" "nota dois") :=
  ⟨rfl, rfl,
    (Mybot.C8_notes [Mybot.ordPending] 7 4 "Admin" "T1" "T2").2.2.1 Mybot.ordPending
      "nota um" "nota dois" rfl rfl (by decide) (by decide)⟩

/-- `≤` on strings follows from the boolean comparison reading `false`. -/
theorem Mybot.str_le_of_listStrLt_eq_false (a b : String)
    (h : Mybot.listStrLt b.data a.data = false) : a ≤ b := by
  rw [← not_lt]
  intro hlt
  rw [String.lt_iff_toList_lt] at hlt
  have := (Mybot.listStrLt_iff b.data a.data).mpr hlt
  rw [h] at this
  cases this

/-- C2: `generateOrderNumber` returns `ORD-<date>-001` when the tenant
has no order matching today's prefix, and otherwise appends one plus the
parsed trailing sequence of the lexicographically greatest matching
order number, zero-padded to 3 digits; two sequential creations from an
empty store receive `ORD-20261012-001` then `ORD-20261012-002`. -/
theorem Mybot.C2_orderNumber :
    (∀ (store : List Mybot.Order) (tid : Nat) (ds : String),
        Mybot.matchingNumbers store tid ds = [] →
        Mybot.generateOrderNumber store tid ds = Mybot.ordNumPat ds ++ "001") ∧
    (∀ (store : List Mybot.Order) (tid : Nat) (ds : String) (m : String) (k : Nat),
        m ∈ Mybot.matchingNumbers store tid ds →
        (∀ x ∈ Mybot.matchingNumbers store tid ds, x ≤ m) →
        Mybot.parseIntNat ((Mybot.splitDash m).getD 2 "") = some k →
        Mybot.generateOrderNumber store tid ds =
          Mybot.ordNumPat ds ++ Mybot.pad3 (k + 1)) ∧
    ((Mybot.createOrderSvc [] [] 7 Mybot.dataA "20261012" 100 1).toOption.map
        (fun p => p.1.orderNumber) = some "ORD-20261012-001") ∧
    ((Mybot.createOrderSvc []
          (((Mybot.createOrderSvc [] [] 7 Mybot.dataA "20261012" 100 1).toOption.map
            Prod.snd).getD []) 7 Mybot.dataA "20261012" 101 2).toOption.map
        (fun p => p.1.orderNumber) = some "ORD-20261012-002") := by
  refine ⟨?_, ?_, by decide, by decide⟩
  · intro store tid ds h
    unfold Mybot.generateOrderNumber
    rw [h]
    rfl
  · intro store tid ds m k hm hub hparse
    unfold Mybot.generateOrderNumber
    rw [Mybot.maxString?_eq_some _ m hm hub]
    dsimp only
    rw [hparse]

/-- Witness for C2's general conjuncts: a store holding numbers 003 and
004 for the tenant (and an unrelated tenant ignored by the filter)
yields 005. -/
theorem Mybot.C2_orderNumber_witness :
    Mybot.generateOrderNumber [Mybot.ordCompleted, Mybot.ordPending] 7 "20261012" =
      Mybot.ordNumPat "20261012" ++ Mybot.pad3 5 :=
  Mybot.C2_orderNumber.2.1 [Mybot.ordCompleted, Mybot.ordPending] 7 "20261012"
    "ORD-20261012-004" 4
    (by decide)
    (by
      intro x hx
      have hxl : x = "ORD-20261012-003" ∨ x = "ORD-20261012-004" := by
        have hm : Mybot.matchingNumbers [Mybot.ordCompleted, Mybot.ordPending] 7
            "20261012" = ["ORD-20261012-003", "ORD-20261012-004"] := by decide
        rw [hm] at hx
        simpa using hx
      rcases hxl with h | h <;> subst h
      · exact Mybot.str_le_of_listStrLt_eq_false _ _ (by decide)
      · exact le_refl _)
    (by decide)

/-- Mapping an entry-rewriting function that preserves keys commutes
with the keyed `find?`. -/
theorem Mybot.find?_key_map (acc : List (Mybot.Status × Mybot.StatusStat))
    (g : Mybot.Status × Mybot.StatusStat → Mybot.Status × Mybot.StatusStat)
    (hg : ∀ p, (g p).1 = p.1) (stt : Mybot.Status) :
    (acc.map g).find? (fun p => p.1 == stt) =
      (acc.find? (fun p => p.1 == stt)).map g := by
  induction acc with
  | nil => rfl
  | cons p rest ih =>
    simp only [List.map_cons, List.find?_cons]
    rw [hg p]
    cases h : (p.1 == stt) with
    | true => rfl
    | false => exact ih

/-- One aggregation step: bumping an order into the per-status groups
increments exactly its status's count and adds its total. -/
theorem Mybot.lookupStat_bumpStatus (acc : List (Mybot.Status × Mybot.StatusStat))
    (o : Mybot.Order) (stt : Mybot.Status) :
    Mybot.lookupStat (Mybot.bumpStatus acc o) stt =
      if stt = o.status then
        some (match Mybot.lookupStat acc o.status with
          | none => ⟨1, o.total⟩
          | some st0 => ⟨st0.count + 1, st0.total + o.total⟩)
      else Mybot.lookupStat acc stt := by
  cases hany : acc.any (fun p => p.1 == o.status) with
  | true =>
    have hsome : ∃ p0, acc.find? (fun p => p.1 == o.status) = some p0 := by
      rw [← Option.isSome_iff_exists, List.find?_isSome]
      simpa using hany
    obtain ⟨p0, hp0⟩ := hsome
    have hp0key0 := List.find?_some hp0
    have hp0key : (p0.1 == o.status) = true := hp0key0
    have hkey : p0.1 = o.status := by simpa using hp0key
    have hbump : Mybot.bumpStatus acc o = acc.map (fun p =>
        if p.1 == o.status then (p.1, ⟨p.2.count + 1, p.2.total + o.total⟩) else p) := by
      simp [Mybot.bumpStatus, hany]
    have hg : ∀ p : Mybot.Status × Mybot.StatusStat,
        ((fun p => if p.1 == o.status then
            (p.1, (⟨p.2.count + 1, p.2.total + o.total⟩ : Mybot.StatusStat)) else p) p).1
          = p.1 := by
      intro p
      by_cases hc : (p.1 == o.status) = true <;> simp [hc]
    rw [hbump]
    by_cases hstt : stt = o.status
    · subst hstt
      rw [Mybot.lookupStat, Mybot.find?_key_map _ _ hg, hp0]
      simp [Mybot.lookupStat, hp0, hp0key, hkey]
    · rw [Mybot.lookupStat, Mybot.find?_key_map _ _ hg, if_neg hstt]
      cases hfq : acc.find? (fun p => p.1 == stt) with
      | none => simp [Mybot.lookupStat, hfq]
      | some q =>
        have hqkey0 := List.find?_some hfq
        have hqkey : (q.1 == stt) = true := hqkey0
        have hqeq : q.1 = stt := by simpa using hqkey
        have hqne : (q.1 == o.status) = false := by
          rw [beq_eq_false_iff_ne, hqeq]
          exact hstt
        have hqne' : ¬ q.1 = o.status := by simpa using hqne
        simp [Mybot.lookupStat, hfq, hqne']
  | false =>
    have hnone : acc.find? (fun p => p.1 == o.status) = none := by
      rw [List.find?_eq_none]
      intro x hx hxk
      have : acc.any (fun p => p.1 == o.status) = true :=
        List.any_eq_true.mpr ⟨x, hx, hxk⟩
      rw [hany] at this
      cases this
    have hbump : Mybot.bumpStatus acc o = acc ++ [(o.status, ⟨1, o.total⟩)] := by
      simp [Mybot.bumpStatus, hany]
    rw [hbump]
    by_cases hstt : stt = o.status
    · subst hstt
      simp [Mybot.lookupStat, List.find?_append, hnone]
    · have hne : ((o.status == stt) : Bool) = false := by
        rw [beq_eq_false_iff_ne]
        exact fun h => hstt h.symm
      simp [Mybot.lookupStat, List.find?_append, hne, hstt]

/-- The per-status aggregation fold computes, for every status key, the
count and summed total of exactly the orders with that status. -/
theorem Mybot.lookupStat_foldl : ∀ (l : List Mybot.Order)
    (acc : List (Mybot.Status × Mybot.StatusStat)) (stt : Mybot.Status),
    Mybot.lookupStat (l.foldl Mybot.bumpStatus acc) stt =
      (match Mybot.lookupStat acc stt with
       | none =>
         if (l.filter (fun o => o.status == stt)).isEmpty then none
         else some ⟨(l.filter (fun o => o.status == stt)).length,
           Mybot.sumTotals (l.filter (fun o => o.status == stt))⟩
       | some st0 =>
         some ⟨st0.count + (l.filter (fun o => o.status == stt)).length,
           st0.total + Mybot.sumTotals (l.filter (fun o => o.status == stt))⟩) := by
  intro l
  induction l with
  | nil =>
    intro acc stt
    cases h : Mybot.lookupStat acc stt <;> simp [h, Mybot.sumTotals]
  | cons o rest ih =>
    intro acc stt
    rw [List.foldl_cons, ih (Mybot.bumpStatus acc o) stt,
      Mybot.lookupStat_bumpStatus]
    by_cases hstt : stt = o.status
    · rw [if_pos hstt]
      have hbe : (o.status == stt) = true := by
        rw [beq_iff_eq]
        exact hstt.symm
      have hfil : (o :: rest).filter (fun w => w.status == stt) =
          o :: rest.filter (fun w => w.status == stt) := by
        simp [List.filter_cons, hbe]
      rw [hfil, hstt]
      cases hacc : Mybot.lookupStat acc o.status with
      | none =>
        simp only [Mybot.sumTotals, List.map_cons, List.sum_cons, List.length_cons,
          List.isEmpty_cons, Bool.false_eq_true, if_false, Option.some.injEq,
          Mybot.StatusStat.mk.injEq]
        exact ⟨by omega, trivial⟩
      | some st0 =>
        simp only [Mybot.sumTotals, List.map_cons, List.sum_cons, List.length_cons,
          Option.some.injEq, Mybot.StatusStat.mk.injEq]
        exact ⟨by omega, by ring⟩
    · rw [if_neg hstt]
      have hne : (o.status == stt) = false := by
        rw [beq_eq_false_iff_ne]
        exact fun h => hstt h.symm
      have hfil : (o :: rest).filter (fun w => w.status == stt) =
          rest.filter (fun w => w.status == stt) := by
        simp [List.filter_cons, hne]
      rw [hfil]

/-- C6: over any tenant window, the statistics report the order count,
the per-status breakdown (count and summed totals of exactly the orders
of each status, absent statuses omitted), the average ticket (the mean
of the totals, 0 on an empty window), and total sales (sum of totals,
all statuses included); the empty store yields zeroed structures; and
Scenario E — one completed order of total 75 and one cancelled order of
total 40 — yields totalOrders 2, completed {1, 75}, cancelled {1, 40},
averageTicket 57.5 and totalSales 115. -/
theorem Mybot.C6_statistics :
    (∀ (store : List Mybot.Order) (tid s e : Nat),
      (Mybot.getOrderStatistics store tid s e).totalOrders =
        (store.filter (Mybot.inWindow tid s e)).length ∧
      (Mybot.getOrderStatistics store tid s e).totalSales =
        Mybot.sumTotals (store.filter (Mybot.inWindow tid s e)) ∧
      ((store.filter (Mybot.inWindow tid s e)).length : ℚ) *
          (Mybot.getOrderStatistics store tid s e).averageTicket =
        Mybot.sumTotals (store.filter (Mybot.inWindow tid s e)) ∧
      (¬ store.filter (Mybot.inWindow tid s e) = [] →
        (Mybot.getOrderStatistics store tid s e).averageTicket =
          Mybot.sumTotals (store.filter (Mybot.inWindow tid s e)) /
            ((store.filter (Mybot.inWindow tid s e)).length : ℚ)) ∧
      (∀ stt : Mybot.Status,
        Mybot.lookupStat (Mybot.getOrderStatistics store tid s e).byStatus stt =
          (if ((store.filter (Mybot.inWindow tid s e)).filter
                (fun o => o.status == stt)).isEmpty then none
           else some ⟨((store.filter (Mybot.inWindow tid s e)).filter
                (fun o => o.status == stt)).length,
              Mybot.sumTotals ((store.filter (Mybot.inWindow tid s e)).filter
                (fun o => o.status == stt))⟩))) ∧
    (∀ tid s e : Nat, Mybot.getOrderStatistics [] tid s e = ⟨0, [], 0, 0⟩) ∧
    ((Mybot.getOrderStatistics [Mybot.ordE1, Mybot.ordE2] 7 0 100).totalOrders = 2 ∧
      Mybot.lookupStat
        (Mybot.getOrderStatistics [Mybot.ordE1, Mybot.ordE2] 7 0 100).byStatus
        .completed = some ⟨1, 75⟩ ∧
      Mybot.lookupStat
        (Mybot.getOrderStatistics [Mybot.ordE1, Mybot.ordE2] 7 0 100).byStatus
        .cancelled = some ⟨1, 40⟩ ∧
      (Mybot.getOrderStatistics [Mybot.ordE1, Mybot.ordE2] 7 0 100).averageTicket =
        115 / 2 ∧
      (Mybot.getOrderStatistics [Mybot.ordE1, Mybot.ordE2] 7 0 100).totalSales = 115) := by
  refine ⟨?_, ?_, by decide, by decide, by decide, ?_, ?_⟩
  · intro store tid s e
    refine ⟨rfl, rfl, ?_, ?_, ?_⟩
    · by_cases h : store.filter (Mybot.inWindow tid s e) = []
      · simp [Mybot.getOrderStatistics, h, Mybot.sumTotals]
      · have hlen : ((store.filter (Mybot.inWindow tid s e)).length : ℚ) ≠ 0 := by
          simpa using fun hl => h (List.length_eq_zero.mp hl)
        have hie : (store.filter (Mybot.inWindow tid s e)).isEmpty = false := by
          simpa [List.isEmpty_iff] using h
        simp only [Mybot.getOrderStatistics, hie, Bool.false_eq_true, if_false]
        rw [mul_comm, div_mul_cancel₀ _ hlen]
    · intro h
      have hie : (store.filter (Mybot.inWindow tid s e)).isEmpty = false := by
        simpa [List.isEmpty_iff] using h
      simp only [Mybot.getOrderStatistics, hie, Bool.false_eq_true, if_false]
    · intro stt
      have : (Mybot.getOrderStatistics store tid s e).byStatus =
          (store.filter (Mybot.inWindow tid s e)).foldl Mybot.bumpStatus [] := rfl
      rw [this, Mybot.lookupStat_foldl]
      rfl
  · intro tid s e
    simp [Mybot.getOrderStatistics, Mybot.sumTotals]
  · have hf : ([Mybot.ordE1, Mybot.ordE2].filter (Mybot.inWindow 7 0 100)) =
        [Mybot.ordE1, Mybot.ordE2] := by decide
    have hs : Mybot.sumTotals ([Mybot.ordE1, Mybot.ordE2].filter
        (Mybot.inWindow 7 0 100)) = 115 := by
      rw [hf]
      norm_num [Mybot.sumTotals, Mybot.ordE1, Mybot.ordE2, Mybot.ordCompleted]
    have hie : (([Mybot.ordE1, Mybot.ordE2].filter (Mybot.inWindow 7 0 100))).isEmpty
        = false := by decide
    show (if ([Mybot.ordE1, Mybot.ordE2].filter (Mybot.inWindow 7 0 100)).isEmpty
        then (0 : ℚ)
        else Mybot.sumTotals ([Mybot.ordE1, Mybot.ordE2].filter (Mybot.inWindow 7 0 100)) /
          (([Mybot.ordE1, Mybot.ordE2].filter (Mybot.inWindow 7 0 100)).length : ℚ))
      = 115 / 2
    rw [hie, hs, hf]
    norm_num
  · have hf : ([Mybot.ordE1, Mybot.ordE2].filter (Mybot.inWindow 7 0 100)) =
        [Mybot.ordE1, Mybot.ordE2] := by decide
    show Mybot.sumTotals ([Mybot.ordE1, Mybot.ordE2].filter (Mybot.inWindow 7 0 100))
      = 115
    rw [hf]
    norm_num [Mybot.sumTotals, Mybot.ordE1, Mybot.ordE2, Mybot.ordCompleted]

/-- Witness for C6's mean equation at the Scenario E store. -/
theorem Mybot.C6_statistics_witness :
    ¬ ([Mybot.ordE1, Mybot.ordE2].filter (Mybot.inWindow 7 0 100)) = [] ∧
    (Mybot.getOrderStatistics [Mybot.ordE1, Mybot.ordE2] 7 0 100).averageTicket =
      Mybot.sumTotals ([Mybot.ordE1, Mybot.ordE2].filter (Mybot.inWindow 7 0 100)) /
        (([Mybot.ordE1, Mybot.ordE2].filter (Mybot.inWindow 7 0 100)).length : ℚ) :=
  ⟨by decide,
    ((Mybot.C6_statistics.1 [Mybot.ordE1, Mybot.ordE2] 7 0 100).2.2.2.1 (by decide))⟩
